import Mathlib

/-!
Verification development for the funding-rate arbitrage tool.

The Python sources are embedded shallowly:
* strings are Lean strings, with the Python string operations realized
  character-wise on the underlying character list;
* Python dicts (which preserve insertion order, and keep the original
  position of a key on overwrite) are association lists with an
  order-preserving insert;
* float rates are modelled as rationals, so that the arithmetic of the
  specification scenarios is exact;
* the pandas DataFrame built by the strategy is a column list plus a row
  list, one row per symbol, each row holding only the (venue, rate)
  pairs actually observed (a missing venue entry is absent, never zero);
* the execution coordinator is parametrized by the outcome each venue
  reports for an order call, and returns the list of adapter calls it
  made next to its boolean result.
-/

namespace FundArb

/-- Python `str.upper` on a character list (ASCII, as all symbols here are). -/
def upperChars (cs : List Char) : List Char := cs.map Char.toUpper

/-- Drop the last `n` characters, Python `s[:-n]`. -/
def dropRightChars (cs : List Char) (n : Nat) : List Char := cs.take (cs.length - n)

/-- Python `str.startswith`. -/
def pyStartsWith (s p : String) : Bool := p.data.isPrefixOf s.data

/-- Python `str.endswith`. -/
def pyEndsWith (s p : String) : Bool := p.data.isSuffixOf s.data

/-- One pass over candidate suffixes: remove the first matching one,
    mirroring the `for suffix in (...)` / `break` loops of the source. -/
def stripFirstSuffix : List (List Char) → List Char → List Char
  | [], cs => cs
  | suf :: rest, cs =>
      if suf.isSuffixOf cs then dropRightChars cs suf.length
      else stripFirstSuffix rest cs

/-- The quote-currency suffixes checked by the strategy normalizer, in order. -/
def quoteSuffixes : List (List Char) :=
  ["_USDC".data, "_USDT".data, "-USDC".data, "-USDT".data]

/-- The perpetual-marker suffixes checked by the strategy normalizer, in order. -/
def perpSuffixes : List (List Char) := ["-PERP".data, "_PERP".data]

namespace FundingRateArbitrage

/-- `FundingRateArbitrage._normalize_symbol` on the character list:
    upper-case, strip a `PERP_` prefix, strip the first matching quote
    suffix, strip the first matching perpetual suffix.  The empty string
    is returned unchanged (`if not symbol: return symbol`). -/
def normalizeChars (cs : List Char) : List Char :=
  if cs = [] then cs
  else
    let s0 := upperChars cs
    let s1 := if "PERP_".data.isPrefixOf s0 then s0.drop 5 else s0
    let s2 := stripFirstSuffix quoteSuffixes s1
    stripFirstSuffix perpSuffixes s2

/-- `FundingRateArbitrage._normalize_symbol` (src/src/strategies/funding_rate_arbitrage.py,
    lines 15-46). -/
def _normalize_symbol (symbol : String) : String :=
  String.mk (normalizeChars symbol.data)

end FundingRateArbitrage

/-- The normalized result as its callers consume it: `add_dex_rates` skips
    entries whose normalization is empty, so the empty string plays the
    role of the specification value `none`. -/
def normalizeOpt (symbol : String) : Option String :=
  let t := FundingRateArbitrage._normalize_symbol symbol
  if t = "" then none else some t

/-- Modelled from the claim's amended reading: the normalization algorithm
    without the trim stage and without the edge-stripping stage. -/
def amended_normalize (symbol : String) : Option String :=
  let t := upperChars symbol.data
  if t = [] then none
  else
    let s1 := if "PERP_".data.isPrefixOf t then t.drop 5 else t
    let s2 := stripFirstSuffix quoteSuffixes s1
    let s3 := stripFirstSuffix perpSuffixes s2
    if s3 = [] then none else some (String.mk s3)

/-- Python `str.strip("_- ")` on a character list: remove leading and
    trailing underscore, hyphen and space characters. -/
def stripEdgeChars (cs : List Char) : List Char :=
  let junk : List Char := ['_', '-', ' ']
  ((cs.dropWhile (fun c => junk.contains c)).reverse.dropWhile
      (fun c => junk.contains c)).reverse

/-- Modelled from the spec: the ordered normalization algorithm of §4.1
    (trim and upper-case, empty gives none; strip a `PERP_` prefix; strip
    the first matching quote suffix; strip a trailing perp marker; strip
    leading and trailing `_`, `-`, space; empty gives none).  This is the
    spec-side definition used to compare the source normalizer against
    the specified algorithm. -/
def spec_normalize (symbol : String) : Option String :=
  let t := symbol.data.dropWhile (fun c => c = ' ') |>.reverse.dropWhile (fun c => c = ' ') |>.reverse
  let t := upperChars t
  if t = [] then none
  else
    let s1 := if "PERP_".data.isPrefixOf t then t.drop 5 else t
    let s2 := stripFirstSuffix quoteSuffixes s1
    let s3 := stripFirstSuffix perpSuffixes s2
    let s4 := stripEdgeChars s3
    if s4 = [] then none else some (String.mk s4)

/-! ## Rate aggregation (FundingRateArbitrage, src/src/strategies/funding_rate_arbitrage.py) -/

/-- A rate value; Python floats are modelled as rationals. -/
abbrev Rate := ℚ

/-- Python dict insert: overwriting an existing key keeps its position,
    a new key is appended at the end. -/
def dictInsert {β : Type} (d : List (String × β)) (k : String) (v : β) :
    List (String × β) :=
  match d with
  | [] => [(k, v)]
  | (k0, v0) :: rest =>
      if k0 = k then (k, v) :: rest else (k0, v0) :: dictInsert rest k v

/-- The accumulated `self.dex_rates`: venue name to its normalized
    symbol-to-rate dict, in insertion order. -/
abbrev DexRates := List (String × List (String × Rate))

namespace FundingRateArbitrage

/-- The normalized dict built inside `add_dex_rates`: normalize every key,
    skip entries whose normalized key is empty, later duplicates of the
    same normalized key overwrite earlier ones (Python dict assignment). -/
def normalizeRates (rates : List (String × Rate)) : List (String × Rate) :=
  rates.foldl
    (fun acc p =>
      let n := _normalize_symbol p.1
      if n = "" then acc else dictInsert acc n p.2)
    []

/-- `FundingRateArbitrage.add_dex_rates` (lines 48-69): a missing or empty
    rates dict contributes nothing, as does a dict whose entries all
    normalize away; otherwise the normalized dict is stored under the
    venue name. -/
def add_dex_rates (self : DexRates) (dex_name : String)
    (rates : Option (List (String × Rate))) : DexRates :=
  match rates with
  | none => self
  | some rs =>
      if rs = [] then self
      else
        let normalized := normalizeRates rs
        if normalized = [] then self
        else dictInsert self dex_name normalized

/-- A row of the compiled DataFrame: the symbol (the index entry) and the
    (venue, rate) cells that are present, in column order.  A venue with
    no observation for the symbol simply has no cell. -/
structure Row where
  symbol : String
  rates : List (String × Rate)
deriving DecidableEq, Repr

/-- The compiled DataFrame: its venue columns in order, and its rows. -/
structure DataFrame where
  cols : List String
  rows : List Row
deriving DecidableEq, Repr

/-- Row-index order of `pd.concat(frames, axis=1)`: symbols in order of
    first appearance across the venue series. -/
def tableSymbols (dex_rates : DexRates) : List String :=
  dex_rates.foldl
    (fun acc p =>
      p.2.foldl (fun a q => if q.1 ∈ a then a else a ++ [q.1]) acc)
    []

/-- The cells of one row: every venue that has the symbol in its dict,
    in venue (column) order. -/
def rowRates (dex_rates : DexRates) (sym : String) : List (String × Rate) :=
  dex_rates.foldl
    (fun acc p =>
      match List.lookup sym p.2 with
      | some r => acc ++ [(p.1, r)]
      | none => acc)
    []

/-- `FundingRateArbitrage.compile_rates` (lines 71-88): the outer join of
    the per-venue series into one table. -/
def compile_rates (dex_rates : DexRates) : DataFrame :=
  { cols := dex_rates.map Prod.fst
    rows := (tableSymbols dex_rates).map (fun sym => ⟨sym, rowRates dex_rates sym⟩) }

/-- The `MaxRate` column: `df.max(axis=1, skipna=True)` over the venue
    cells that are present (rows in the pipeline always have at least
    one cell; the default for a cell-less row is irrelevant there). -/
def maxRate : List (String × Rate) → Rate
  | [] => 0
  | p :: rest => rest.foldl (fun m q => max m q.2) p.2

/-- The `MinRate` column, `df.min(axis=1, skipna=True)`. -/
def minRate : List (String × Rate) → Rate
  | [] => 0
  | p :: rest => rest.foldl (fun m q => min m q.2) p.2

/-- The `Difference` column, `MaxRate - MinRate`. -/
def difference (r : Row) : Rate := maxRate r.rates - minRate r.rates

/-- `FundingRateArbitrage.create_rates_table` (lines 90-115): on a
    non-empty table, keep only the rows for which at least two venue
    cells are present.  (`MaxRate`, `MinRate` and `Difference` are the
    derived columns `maxRate`, `minRate`, `difference`.) -/
def create_rates_table (df : DataFrame) : DataFrame :=
  if df.rows = [] then ⟨[], []⟩
  else if df.cols = [] then df
  else ⟨df.cols, df.rows.filter (fun r => 2 ≤ r.rates.length)⟩

/-- `FundingRateArbitrage.display_rates_table` (lines 123-139): the rows
    are rendered as-is, in table order, nothing filtered, sorted or
    truncated; the displayed content is the row list itself. -/
def display_rates_table (df : DataFrame) : List Row := df.rows

/-- Insertion step of the model of `sort_values("Difference", ascending=False)`:
    descending by the `Difference` column. -/
def insertRowDesc (x : Row) : List Row → List Row
  | [] => [x]
  | y :: ys => if difference y < difference x then x :: y :: ys else y :: insertRowDesc x ys

/-- Model of `df.sort_values("Difference", ascending=False)`.  pandas is
    asked for its default quicksort, whose order among equal keys is not
    specified; every theorem below uses only membership in the sorted
    list, which is the same for any reordering by `Difference`. -/
def sortByDifferenceDesc (rs : List Row) : List Row := rs.foldr insertRowDesc []

/-- `FundingRateArbitrage.display_top_rates_differences_from_Orderly`
    (lines 141-190): requires an `orderly` column, then keeps the rows
    with an orderly cell, at least two venue cells and a non-zero
    `Difference`, sorts them descending by `Difference` and shows the
    first `top_n`. -/
def display_top_rates_differences_from_Orderly (df : DataFrame) (top_n : Nat) :
    List Row :=
  if df.rows = [] ∨ "orderly" ∉ df.cols then []
  else if df.cols = [] then []
  else
    ((df.rows.filter (fun r =>
        (List.lookup "orderly" r.rates).isSome
          && decide (2 ≤ r.rates.length)
          && decide (0 < |difference r|))
      |> sortByDifferenceDesc).take top_n)

/-- `FundingRateArbitrage.display_top_rates_differences_from_all_DEXs`
    (lines 192-231): keeps the rows with at least two venue cells and a
    non-zero `Difference`, sorts them descending by `Difference` and
    shows the first `top_n`. -/
def display_top_rates_differences_from_all_DEXs (df : DataFrame) (top_n : Nat) :
    List Row :=
  if df.rows = [] then []
  else if df.cols = [] then []
  else
    ((df.rows.filter (fun r =>
        decide (2 ≤ r.rates.length) && decide (0 < |difference r|))
      |> sortByDifferenceDesc).take top_n)

end FundingRateArbitrage

/-- The `dex_rates` accumulated by the `add_dex_rates` loop of
    `analyze_funding_rate_arbitrage` (src/main.py, lines 96-100).  A
    failed fetch contributes `none` (or an empty dict, which
    `add_dex_rates` equally ignores). -/
def built_dex_rates (venueData : List (String × Option (List (String × Rate)))) :
    DexRates :=
  venueData.foldl (fun s p => FundingRateArbitrage.add_dex_rates s p.1 p.2) []

/-- The aggregation part of `analyze_funding_rate_arbitrage`
    (src/main.py, lines 67-104): feed each venue's fetch result into the
    strategy and build the rates table. -/
def rates_pipeline (venueData : List (String × Option (List (String × Rate)))) :
    FundingRateArbitrage.DataFrame :=
  FundingRateArbitrage.create_rates_table
    (FundingRateArbitrage.compile_rates (built_dex_rates venueData))

/-- Two venues reporting the same symbol with the same rate. -/
def equalPairExample : List (String × Option (List (String × Rate))) :=
  [("orderly", some [("BTC", 1)]), ("hyperliquid", some [("BTC", 1)])]

/-- Two symbols whose insertion order is ascending by spread. -/
def unsortedExample : List (String × Option (List (String × Rate))) :=
  [("v1", some [("A", 1), ("B", 1)]), ("v2", some [("A", 2), ("B", 5)])]

/-- Two venues agree on a rate for `X`, a third reports a different one. -/
def agreeingPairExample : List (String × Option (List (String × Rate))) :=
  [("v1", some [("X", 1)]), ("v2", some [("X", 1)]), ("v3", some [("X", 2)])]

/-- A symbol reported with one common rate by both its venues. -/
def zeroSpreadExample : List (String × Option (List (String × Rate))) :=
  [("v1", some [("Y", 1)]), ("v2", some [("Y", 1)])]

/-- A symbol covered by two venues with distinct rates. -/
def coverageExample : List (String × Option (List (String × Rate))) :=
  [("v1", some [("Z", 1)]), ("v2", some [("Z", 2)])]

/-- The aggregation scenario: orderly and hyperliquid report a BTC rate,
    backpack's fetch failed and contributed an empty dict. -/
def aggregationScenario : List (String × Option (List (String × Rate))) :=
  [("orderly", some [("BTC", 1/10000)]),
   ("hyperliquid", some [("BTC", 3/10000)]),
   ("backpack", some [])]

/-- The BTC row the aggregation scenario builds. -/
def aggregationRow : FundingRateArbitrage.Row :=
  ⟨"BTC", [("orderly", 1/10000), ("hyperliquid", 3/10000)]⟩

/-! ## Two-leg execution coordinator (src/main.py) -/

/-- Order side, from the venue order modules. -/
inductive Side where
  | BUY
  | SELL
deriving DecidableEq, Repr

/-- An observable call made to a venue adapter. -/
inductive AdapterCall where
  | marketOrder (dex symbol : String) (quantity : Rate) (side : Side)
  | closePosition (dex symbol : String)
deriving DecidableEq, Repr

/-- The venue of an adapter call. -/
def AdapterCall.dex : AdapterCall → String
  | .marketOrder d _ _ _ => d
  | .closePosition d _ => d

/-- Number of calls a venue's adapter receives in a trace. -/
def callsToDex (dex : String) (calls : List AdapterCall) : Nat :=
  (calls.filter (fun c => c.dex = dex)).length

/-- Number of close-position (unwind) calls in a trace. -/
def closeCalls (calls : List AdapterCall) : Nat :=
  (calls.filter (fun c => match c with
    | .closePosition _ _ => true
    | _ => false)).length

/-- The outcome each venue reports for an order call, as `create_order`
    computes it from the venue response (`success is True` for orderly,
    `status == "ok"` with a filled status for hyperliquid). -/
abbrev OrderEnv := String → Side → Bool

/-- `create_order` (src/main.py, lines 133-180): dispatch on the venue
    name; a supported venue's adapter receives exactly one market-order
    call and the parsed response decides the boolean; an unsupported
    venue gets no call and the function returns `False`. -/
def create_order (env : OrderEnv) (dex symbol : String) (quantity : Rate)
    (side : Side) : Bool × List AdapterCall :=
  if dex = "orderly" then
    (env "orderly" side, [AdapterCall.marketOrder "orderly" symbol quantity side])
  else if dex = "hyperliquid" then
    (env "hyperliquid" side, [AdapterCall.marketOrder "hyperliquid" symbol quantity side])
  else
    (false, [])

/-- `execute_funding_rate_arbitrage` (src/main.py, lines 183-202): SELL
    on the short venue first; on failure return `False` at once; then BUY
    on the long venue; on failure return `False`; else `True`.  The trace
    collects the adapter calls in order. -/
def execute_funding_rate_arbitrage (env : OrderEnv)
    (symbol short_on_dex long_on_dex : String) (order_quantity : Rate) :
    Bool × List AdapterCall :=
  let short := create_order env short_on_dex symbol order_quantity Side.SELL
  if short.1 = false then (false, short.2)
  else
    let long := create_order env long_on_dex symbol order_quantity Side.BUY
    if long.1 = false then (false, short.2 ++ long.2)
    else (true, short.2 ++ long.2)

/-- The execution states of the specification's state machine. -/
inductive ExecutionState where
  | Pending
  | ShortFilled
  | BothFilled
  | ShortFailed
  | LongFailedAfterShort
deriving DecidableEq, Repr

/-- The terminal state of one run of `execute_funding_rate_arbitrage`,
    read off its three return points: the short-leg early return, the
    long-leg early return after a filled short, and the success return. -/
def execute_terminal_state (env : OrderEnv)
    (symbol short_on_dex long_on_dex : String) (order_quantity : Rate) :
    ExecutionState :=
  let short := create_order env short_on_dex symbol order_quantity Side.SELL
  if short.1 = false then ExecutionState.ShortFailed
  else
    let long := create_order env long_on_dex symbol order_quantity Side.BUY
    if long.1 = false then ExecutionState.LongFailedAfterShort
    else ExecutionState.BothFilled

/-! ### Exception-aware model of the hyperliquid order path (for the
unknown-symbol behavior).  `HyperLiquidOrder.create_market_order`
(src/src/hyperliq/order.py, lines 32-87) looks the symbol up in the
venue universe and raises `ValueError` when it is absent; `create_order`
and `execute_funding_rate_arbitrage` wrap it in no handler, so the
exception propagates out of both.  Raised exceptions are modelled as
`Except.error`. -/

namespace HyperLiquidOrder

/-- `HyperLiquidOrder.create_market_order`: `Except.error` is the raised
    `ValueError` for a symbol missing from the universe; otherwise the
    exchange response decides the reported status. -/
def create_market_order (univ : List String) (exchangeOk : Bool)
    (symbol : String) : Except String Bool :=
  if symbol ∈ univ then Except.ok exchangeOk
  else Except.error "Symbol not found in the Hyperliquid universe."

end HyperLiquidOrder

/-- `create_order` with the hyperliquid branch calling the raising
    adapter: the `ValueError` is not caught, so it surfaces as
    `Except.error`. -/
def create_order_exc (env : OrderEnv) (univ : List String)
    (dex symbol : String) (side : Side) : Except String Bool :=
  if dex = "orderly" then Except.ok (env "orderly" side)
  else if dex = "hyperliquid" then
    match HyperLiquidOrder.create_market_order univ (env "hyperliquid" side) symbol with
    | Except.error e => Except.error e
    | Except.ok ok => Except.ok ok
  else Except.ok false

/-- `execute_funding_rate_arbitrage` with exception propagation: an
    exception in either leg escapes the coordinator unchanged. -/
def execute_funding_rate_arbitrage_exc (env : OrderEnv) (univ : List String)
    (symbol short_on_dex long_on_dex : String) : Except String Bool :=
  match create_order_exc env univ short_on_dex symbol Side.SELL with
  | Except.error e => Except.error e
  | Except.ok false => Except.ok false
  | Except.ok true =>
      match create_order_exc env univ long_on_dex symbol Side.BUY with
      | Except.error e => Except.error e
      | Except.ok ok => Except.ok ok

/-! ## Helper lemmas -/

theorem char_toNat_ofNat (m : Nat) (hm : m < 55296) : (Char.ofNat m).toNat = m := by
  have hv : m.isValidChar := Or.inl hm
  rw [Char.ofNat, dif_pos hv]
  rfl

theorem toUpper_fix (c : Char) (h : ¬(c.toNat ≥ 97 ∧ c.toNat ≤ 122)) :
    Char.toUpper c = c := by
  simp only [Char.toUpper]
  exact if_neg h

theorem toUpper_toUpper (c : Char) :
    Char.toUpper (Char.toUpper c) = Char.toUpper c := by
  by_cases h : c.toNat ≥ 97 ∧ c.toNat ≤ 122
  · have key : Char.toUpper c = Char.ofNat (c.toNat - 32) := by
      simp only [Char.toUpper]
      exact if_pos h
    rw [key]
    refine toUpper_fix _ ?_
    rw [char_toNat_ofNat _ (by omega)]
    omega
  · rw [toUpper_fix c h]
    exact toUpper_fix c h

theorem upperChars_upperChars (cs : List Char) :
    upperChars (upperChars cs) = upperChars cs := by
  simp only [upperChars, List.map_map]
  exact List.map_congr_left (fun a _ => toUpper_toUpper a)

theorem upperChars_take (cs : List Char) (n : Nat)
    (h : upperChars cs = cs) : upperChars (cs.take n) = cs.take n := by
  calc upperChars (cs.take n) = (upperChars cs).take n := List.map_take ..
    _ = cs.take n := by rw [h]

theorem upperChars_drop (cs : List Char) (n : Nat)
    (h : upperChars cs = cs) : upperChars (cs.drop n) = cs.drop n := by
  calc upperChars (cs.drop n) = (upperChars cs).drop n := List.map_drop ..
    _ = cs.drop n := by rw [h]

theorem upperChars_stripFirstSuffix (sufs : List (List Char)) (cs : List Char)
    (h : upperChars cs = cs) :
    upperChars (stripFirstSuffix sufs cs) = stripFirstSuffix sufs cs := by
  induction sufs with
  | nil => exact h
  | cons suf rest ih =>
      simp only [stripFirstSuffix]
      by_cases hs : suf.isSuffixOf cs
      · rw [if_pos hs]
        exact upperChars_take _ _ h
      · rw [if_neg hs]
        exact ih

/-- The output of the strategy normalizer is already fully upper-case. -/
theorem upperChars_normalizeChars (cs : List Char) :
    upperChars (FundingRateArbitrage.normalizeChars cs) =
      FundingRateArbitrage.normalizeChars cs := by
  by_cases h0 : cs = []
  · subst h0
    rfl
  · simp only [FundingRateArbitrage.normalizeChars, if_neg h0]
    apply upperChars_stripFirstSuffix
    apply upperChars_stripFirstSuffix
    by_cases hp : "PERP_".data.isPrefixOf (upperChars cs)
    · rw [if_pos hp]
      exact upperChars_drop _ _ (upperChars_upperChars cs)
    · rw [if_neg hp]
      exact upperChars_upperChars cs

theorem stripFirstSuffix_of_no_match (sufs : List (List Char)) (cs : List Char)
    (h : ∀ suf ∈ sufs, suf.isSuffixOf cs = false) :
    stripFirstSuffix sufs cs = cs := by
  induction sufs with
  | nil => rfl
  | cons suf rest ih =>
      simp only [stripFirstSuffix]
      rw [if_neg (by simp [h suf (by simp)]), ih (fun s hs => h s (by simp [hs]))]

/-! ## C2: idempotence of symbol normalization -/

/-- C2, counterexample: the claim `normalize(normalize(s)) == normalize(s)`
    for every raw symbol string fails on the code: a second application
    strips a second quote suffix from `"X_USDT_USDT"`. -/
theorem C2_normalize_not_idempotent :
    FundingRateArbitrage._normalize_symbol
        (FundingRateArbitrage._normalize_symbol "X_USDT_USDT") ≠
      FundingRateArbitrage._normalize_symbol "X_USDT_USDT" := by
  decide

/-- C2, amended: normalization is idempotent on every symbol whose
    normalized form carries no residual marker, i.e. does not itself
    start with `PERP_` and does not end with one of the six quote or
    perpetual suffixes.  (The counterexample `"X_USDT_USDT"` shows the
    unrestricted claim is false.) -/
theorem C2_normalize_idempotent_amended (s : String)
    (hp : pyStartsWith (FundingRateArbitrage._normalize_symbol s) "PERP_" = false)
    (hq : ∀ suf ∈ ["_USDC", "_USDT", "-USDC", "-USDT", "-PERP", "_PERP"],
        pyEndsWith (FundingRateArbitrage._normalize_symbol s) suf = false) :
    FundingRateArbitrage._normalize_symbol (FundingRateArbitrage._normalize_symbol s) =
      FundingRateArbitrage._normalize_symbol s := by
  have hup : upperChars (FundingRateArbitrage.normalizeChars s.data) =
      FundingRateArbitrage.normalizeChars s.data := upperChars_normalizeChars s.data
  have hpre : ("PERP_".data.isPrefixOf (FundingRateArbitrage.normalizeChars s.data)) = false := hp
  have hquote : ∀ suf ∈ quoteSuffixes,
      suf.isSuffixOf (FundingRateArbitrage.normalizeChars s.data) = false := by
    intro suf hsuf
    simp only [quoteSuffixes, List.mem_cons, List.not_mem_nil, or_false] at hsuf
    rcases hsuf with h | h | h | h
    · exact h ▸ hq "_USDC" (by simp)
    · exact h ▸ hq "_USDT" (by simp)
    · exact h ▸ hq "-USDC" (by simp)
    · exact h ▸ hq "-USDT" (by simp)
  have hperp : ∀ suf ∈ perpSuffixes,
      suf.isSuffixOf (FundingRateArbitrage.normalizeChars s.data) = false := by
    intro suf hsuf
    simp only [perpSuffixes, List.mem_cons, List.not_mem_nil, or_false] at hsuf
    rcases hsuf with h | h
    · exact h ▸ hq "-PERP" (by simp)
    · exact h ▸ hq "_PERP" (by simp)
  show String.mk (FundingRateArbitrage.normalizeChars (FundingRateArbitrage.normalizeChars s.data)) =
      String.mk (FundingRateArbitrage.normalizeChars s.data)
  set t := FundingRateArbitrage.normalizeChars s.data with hdef
  by_cases ht : t = []
  · rw [ht]
    rfl
  · have hfix : FundingRateArbitrage.normalizeChars t = t := by
      simp only [FundingRateArbitrage.normalizeChars, if_neg ht]
      rw [hup, hpre]
      simp only [Bool.false_eq_true, if_false]
      rw [stripFirstSuffix_of_no_match _ _ hquote, stripFirstSuffix_of_no_match _ _ hperp]
    rw [hfix]

/-- C2, witness: the amended idempotence applied at `"BTC_USDT"`. -/
theorem C2_normalize_idempotent_witness :
    (pyStartsWith (FundingRateArbitrage._normalize_symbol "BTC_USDT") "PERP_" = false) ∧
    (∀ suf ∈ ["_USDC", "_USDT", "-USDC", "-USDT", "-PERP", "_PERP"],
        pyEndsWith (FundingRateArbitrage._normalize_symbol "BTC_USDT") suf = false) ∧
    FundingRateArbitrage._normalize_symbol
        (FundingRateArbitrage._normalize_symbol "BTC_USDT") =
      FundingRateArbitrage._normalize_symbol "BTC_USDT" :=
  ⟨by decide, by decide,
    C2_normalize_idempotent_amended "BTC_USDT" (by decide) (by decide)⟩

/-! ## C3: the normalization algorithm -/

/-- C3, counterexample: the source normalizer does not follow the
    specified ordered algorithm on every input: the spec's stage 5 strips
    leading and trailing separators, the code does not, and they disagree
    on `"_BTC"` (spec: `some "BTC"`, code: `"_BTC"`). -/
theorem C3_normalize_algorithm_counterexample :
    ¬ (normalizeOpt "_BTC" = spec_normalize "_BTC") := by
  decide

/-- C3, amended: the source normalizer realizes the specified algorithm
    with stage 1 reduced to upper-casing (no trim) and without stage 5
    (no stripping of leading or trailing `_`, `-` or space): upper-case,
    none on empty, strip a `PERP_` prefix, strip the first matching quote
    suffix among `_USDC, _USDT, -USDC, -USDT`, strip a trailing `-PERP`
    or `_PERP`, and none iff the result is empty; the four examples of
    the claim hold. -/
theorem C3_normalize_algorithm_amended :
    (∀ s, normalizeOpt s = amended_normalize s) ∧
    normalizeOpt "PERP_ETH_USDC" = some "ETH" ∧
    normalizeOpt "BTC-PERP" = some "BTC" ∧
    normalizeOpt "SOL_USDT" = some "SOL" ∧
    normalizeOpt "" = none := by
  refine ⟨?_, by decide, by decide, by decide, by decide⟩
  intro s
  simp only [normalizeOpt, amended_normalize, FundingRateArbitrage._normalize_symbol,
    FundingRateArbitrage.normalizeChars]
  by_cases h : s.data = []
  · simp [h, upperChars]
  · have h2 : upperChars s.data ≠ [] := by simpa [upperChars] using h
    simp only [h, h2, if_neg, if_false]
    simp [String.ext_iff]

theorem closeCalls_append (a b : List AdapterCall) :
    closeCalls (a ++ b) = closeCalls a + closeCalls b := by
  simp [closeCalls, List.filter_append]

/-! ## C1: the execution coordinator's state machine -/

/-- C1: the coordinator realizes the specified two-leg state machine.
    With distinct short and long venues: the trace starts with the short
    leg's calls; if the short leg's reported result is failure the run
    terminates in `ShortFailed`, returns only the short leg's trace and
    the long venue's adapter receives zero calls; if the short leg
    succeeds and the long leg fails the run terminates in
    `LongFailedAfterShort` with exactly the two legs' order calls; and no
    run ever issues a close-position (unwind) call. -/
theorem C1_coordinator_state_machine (env : OrderEnv)
    (symbol short_on_dex long_on_dex : String) (order_quantity : Rate)
    (hne : short_on_dex ≠ long_on_dex) :
    (let short := create_order env short_on_dex symbol order_quantity Side.SELL
     let long := create_order env long_on_dex symbol order_quantity Side.BUY
     let run := execute_funding_rate_arbitrage env symbol short_on_dex long_on_dex order_quantity
     let st := execute_terminal_state env symbol short_on_dex long_on_dex order_quantity
     (short.1 = false →
        st = ExecutionState.ShortFailed ∧ run.2 = short.2 ∧
          callsToDex long_on_dex run.2 = 0) ∧
     (short.1 = true → long.1 = false →
        st = ExecutionState.LongFailedAfterShort ∧ run.2 = short.2 ++ long.2) ∧
     (short.1 = true → long.1 = true →
        st = ExecutionState.BothFilled ∧ run.2 = short.2 ++ long.2) ∧
     closeCalls run.2 = 0) := by
  have hshortcalls : ∀ side, callsToDex long_on_dex
      (create_order env short_on_dex symbol order_quantity side).2 = 0 := by
    intro side
    simp only [create_order]
    by_cases h1 : short_on_dex = "orderly"
    · subst h1
      simp [callsToDex, AdapterCall.dex, hne]
    · by_cases h2 : short_on_dex = "hyperliquid"
      · subst h2
        simp [h1, callsToDex, AdapterCall.dex, hne]
      · simp [h1, h2, callsToDex]
  have hclose : ∀ dex side, closeCalls
      (create_order env dex symbol order_quantity side).2 = 0 := by
    intro dex side
    simp only [create_order]
    by_cases h1 : dex = "orderly"
    · simp [h1, closeCalls]
    · by_cases h2 : dex = "hyperliquid"
      · simp [h1, h2, closeCalls]
      · simp [h1, h2, closeCalls]
  cases hs : (create_order env short_on_dex symbol order_quantity Side.SELL).1 <;>
    cases hl : (create_order env long_on_dex symbol order_quantity Side.BUY).1 <;>
      simp [execute_funding_rate_arbitrage, execute_terminal_state, hs, hl,
        closeCalls_append, hclose, hshortcalls]

/-- C1, witness: the state machine at a concrete failing short leg,
    shorting orderly and longing hyperliquid with every venue rejecting. -/
theorem C1_coordinator_state_machine_witness :
    (("orderly" : String) ≠ "hyperliquid") ∧
    (let env : OrderEnv := fun _ _ => false
     let short := create_order env "orderly" "BTC" 1 Side.SELL
     let long := create_order env "hyperliquid" "BTC" 1 Side.BUY
     let run := execute_funding_rate_arbitrage env "BTC" "orderly" "hyperliquid" 1
     let st := execute_terminal_state env "BTC" "orderly" "hyperliquid" 1
     (short.1 = false →
        st = ExecutionState.ShortFailed ∧ run.2 = short.2 ∧
          callsToDex "hyperliquid" run.2 = 0) ∧
     (short.1 = true → long.1 = false →
        st = ExecutionState.LongFailedAfterShort ∧ run.2 = short.2 ++ long.2) ∧
     (short.1 = true → long.1 = true →
        st = ExecutionState.BothFilled ∧ run.2 = short.2 ++ long.2) ∧
     closeCalls run.2 = 0) :=
  ⟨by decide,
    C1_coordinator_state_machine (fun _ _ => false) "BTC" "orderly" "hyperliquid" 1
      (by decide)⟩

/-! ## C10: the coordinator's boolean return value -/

/-- C10: the coordinator returns a single boolean, true exactly when both
    leg orders report success; both failure outcomes yield the same value
    `false`, so the returned value distinguishes neither the `ShortFailed`
    from the `LongFailedAfterShort` terminal state nor carries any order
    id (its type is `Bool`). -/
theorem C10_return_value_conflates_failures (env : OrderEnv)
    (symbol short_on_dex long_on_dex : String) (order_quantity : Rate) :
    (execute_funding_rate_arbitrage env symbol short_on_dex long_on_dex order_quantity).1 =
      ((create_order env short_on_dex symbol order_quantity Side.SELL).1 &&
        (create_order env long_on_dex symbol order_quantity Side.BUY).1) := by
  simp only [execute_funding_rate_arbitrage]
  by_cases hs : (create_order env short_on_dex symbol order_quantity Side.SELL).1 = false
  · simp [hs]
  · have hs' : (create_order env short_on_dex symbol order_quantity Side.SELL).1 = true := by
      revert hs
      cases (create_order env short_on_dex symbol order_quantity Side.SELL).1 <;> simp
    by_cases hl : (create_order env long_on_dex symbol order_quantity Side.BUY).1 = false
    · simp [hs', hl]
    · have hl' : (create_order env long_on_dex symbol order_quantity Side.BUY).1 = true := by
        revert hl
        cases (create_order env long_on_dex symbol order_quantity Side.BUY).1 <;> simp
      simp [hs', hl']

/-! ## C9: unknown symbol on the hyperliquid short leg -/

/-- C9: evidence for the code bug.  With short venue hyperliquid and a
    symbol outside the venue universe, `HyperLiquidOrder.create_market_order`
    raises `ValueError`; neither `create_order` nor
    `execute_funding_rate_arbitrage` catches it, so the run ends in the
    propagated exception instead of an explicit failure result
    (`Except.ok false`, the ShortFailed outcome). -/
theorem C9_unknown_symbol_exception_escapes :
    execute_funding_rate_arbitrage_exc (fun _ _ => true) ["BTC", "ETH"]
        "FOO" "hyperliquid" "orderly"
      = Except.error "Symbol not found in the Hyperliquid universe." ∧
    execute_funding_rate_arbitrage_exc (fun _ _ => true) ["BTC", "ETH"]
        "FOO" "hyperliquid" "orderly"
      ≠ Except.ok false := by
  constructor
  · rfl
  · intro h
    cases h

/-! ## Table lemmas -/

namespace FundingRateArbitrage

theorem mem_insertRowDesc (x y : Row) (l : List Row) :
    x ∈ insertRowDesc y l ↔ x = y ∨ x ∈ l := by
  induction l with
  | nil => simp [insertRowDesc]
  | cons z zs ih =>
      simp only [insertRowDesc]
      by_cases h : difference z < difference y
      · simp [h]
      · simp only [if_neg h, List.mem_cons, ih]
        tauto

theorem mem_sortByDifferenceDesc (x : Row) (l : List Row) :
    x ∈ sortByDifferenceDesc l ↔ x ∈ l := by
  induction l with
  | nil => simp [sortByDifferenceDesc]
  | cons z zs ih =>
      simp only [sortByDifferenceDesc, List.foldr_cons] at ih ⊢
      rw [mem_insertRowDesc, ih, List.mem_cons]

/-- Inner fold of `tableSymbols` only appends fresh symbols. -/
theorem nodup_symbol_fold (l : List (String × Rate)) (acc : List String)
    (h : acc.Nodup) :
    (l.foldl (fun a q => if q.1 ∈ a then a else a ++ [q.1]) acc).Nodup := by
  induction l generalizing acc with
  | nil => exact h
  | cons q qs ih =>
      simp only [List.foldl_cons]
      by_cases hq : q.1 ∈ acc
      · rw [if_pos hq]
        exact ih acc h
      · rw [if_neg hq]
        refine ih _ ?_
        simp [List.nodup_append, h, hq]

theorem tableSymbols_go_nodup (d : DexRates) (acc : List String) (h : acc.Nodup) :
    (d.foldl (fun acc p => p.2.foldl (fun a q => if q.1 ∈ a then a else a ++ [q.1]) acc)
      acc).Nodup := by
  induction d generalizing acc with
  | nil => exact h
  | cons p ps ih =>
      simp only [List.foldl_cons]
      exact ih _ (nodup_symbol_fold p.2 acc h)

theorem tableSymbols_nodup (d : DexRates) : (tableSymbols d).Nodup :=
  tableSymbols_go_nodup d [] List.nodup_nil

theorem compile_rows_map_symbol (d : DexRates) :
    (compile_rates d).rows.map Row.symbol = tableSymbols d := by
  simp only [compile_rates, List.map_map]
  rw [show (Row.symbol ∘ fun sym => (⟨sym, rowRates d sym⟩ : Row)) = id from rfl,
    List.map_id]

/-- `create_rates_table` keeps a subsequence of the compiled rows. -/
theorem create_rows_sublist (df : DataFrame) :
    List.Sublist (create_rates_table df).rows df.rows := by
  rw [create_rates_table]
  by_cases h0 : df.rows = []
  · simp [h0]
  · rw [if_neg h0]
    by_cases h1 : df.cols = []
    · simp [h1]
    · simp only [if_neg h1]
      exact List.filter_sublist df.rows

/-- Every row the coverage filter keeps has at least two venue cells. -/
theorem create_rows_coverage (df : DataFrame) (hcols : df.cols ≠ [])
    (r : Row) (hr : r ∈ (create_rates_table df).rows) :
    2 ≤ r.rates.length := by
  rw [create_rates_table] at hr
  by_cases h0 : df.rows = []
  · simp [h0] at hr
  · rw [if_neg h0, if_neg hcols] at hr
    simpa using (List.mem_filter.mp hr).2

/-- A compiled table with no venue column has no rows. -/
theorem compile_cols_nil_rows_nil (d : DexRates)
    (h : (compile_rates d).cols = []) : (compile_rates d).rows = [] := by
  have hd : d = [] := by
    simpa [compile_rates] using h
  subst hd
  rfl

/-- Every cell of a compiled row is a rate some venue actually reported:
    no cell is fabricated for a missing observation. -/
theorem mem_rowRates (d : DexRates) (sym : String) (p : String × Rate)
    (hp : p ∈ rowRates d sym) :
    ∃ rs, (p.1, rs) ∈ d ∧ List.lookup sym rs = some p.2 := by
  rw [rowRates] at hp
  suffices h : ∀ acc, p ∈ d.foldl
      (fun acc q => match List.lookup sym q.2 with
        | some r => acc ++ [(q.1, r)]
        | none => acc) acc →
      p ∈ acc ∨ ∃ rs, (p.1, rs) ∈ d ∧ List.lookup sym rs = some p.2 by
    rcases h [] hp with h' | h'
    · simp at h'
    · exact h'
  clear hp
  induction d with
  | nil => exact fun acc hp => Or.inl hp
  | cons q qs ih =>
      intro acc hp
      simp only [List.foldl_cons] at hp
      rcases hlook : List.lookup sym q.2 with _ | r
      · rw [hlook] at hp
        rcases ih acc hp with h' | ⟨rs, hrs, hlk⟩
        · exact Or.inl h'
        · exact Or.inr ⟨rs, List.mem_cons_of_mem _ hrs, hlk⟩
      · rw [hlook] at hp
        rcases ih _ hp with h' | ⟨rs, hrs, hlk⟩
        · rcases List.mem_append.mp h' with h'' | h''
          · exact Or.inl h''
          · simp only [List.mem_singleton] at h''
            subst h''
            exact Or.inr ⟨q.2, List.mem_cons_self _ _, hlook⟩
        · exact Or.inr ⟨rs, List.mem_cons_of_mem _ hrs, hlk⟩

/-- Rows of a compiled table carry exactly their symbol's cells. -/
theorem mem_compile_rows (d : DexRates) (r : Row)
    (hr : r ∈ (compile_rates d).rows) : r.rates = rowRates d r.symbol := by
  simp only [compile_rates, List.mem_map] at hr
  rcases hr with ⟨sym, _, rfl⟩
  rfl

/-- The ranked rows of either top-N mode are filtered table rows. -/
theorem mem_display_top_Orderly (df : DataFrame) (n : Nat) (r : Row)
    (hr : r ∈ display_top_rates_differences_from_Orderly df n) :
    r ∈ df.rows ∧ 2 ≤ r.rates.length ∧ 0 < |difference r| := by
  rw [display_top_rates_differences_from_Orderly] at hr
  by_cases h0 : df.rows = [] ∨ "orderly" ∉ df.cols
  · simp [h0] at hr
  · rw [if_neg h0] at hr
    by_cases h1 : df.cols = []
    · simp [h1] at hr
    · rw [if_neg h1] at hr
      have hr' := List.take_subset _ _ hr
      rw [mem_sortByDifferenceDesc] at hr'
      have hm := List.mem_filter.mp hr'
      refine ⟨hm.1, ?_, ?_⟩
      · have := hm.2
        simp only [Bool.and_eq_true, decide_eq_true_eq] at this
        exact this.1.2
      · have := hm.2
        simp only [Bool.and_eq_true, decide_eq_true_eq] at this
        exact this.2

theorem mem_display_top_all_DEXs (df : DataFrame) (n : Nat) (r : Row)
    (hr : r ∈ display_top_rates_differences_from_all_DEXs df n) :
    r ∈ df.rows ∧ 2 ≤ r.rates.length ∧ 0 < |difference r| := by
  rw [display_top_rates_differences_from_all_DEXs] at hr
  by_cases h0 : df.rows = []
  · simp [h0] at hr
  · rw [if_neg h0] at hr
    by_cases h1 : df.cols = []
    · simp [h1] at hr
    · rw [if_neg h1] at hr
      have hr' := List.take_subset _ _ hr
      rw [mem_sortByDifferenceDesc] at hr'
      have hm := List.mem_filter.mp hr'
      have := hm.2
      simp only [Bool.and_eq_true, decide_eq_true_eq] at this
      exact ⟨hm.1, this.1, this.2⟩

end FundingRateArbitrage

/-- The pipeline's rows have pairwise distinct symbols. -/
theorem pipeline_rows_symbol_nodup (venueData : List (String × Option (List (String × Rate)))) :
    ((rates_pipeline venueData).rows.map FundingRateArbitrage.Row.symbol).Nodup := by
  have hsub : List.Sublist
      ((rates_pipeline venueData).rows.map FundingRateArbitrage.Row.symbol)
      ((FundingRateArbitrage.compile_rates (built_dex_rates venueData)).rows.map
        FundingRateArbitrage.Row.symbol) :=
    (FundingRateArbitrage.create_rows_sublist _).map FundingRateArbitrage.Row.symbol
  refine hsub.nodup ?_
  rw [FundingRateArbitrage.compile_rows_map_symbol]
  exact FundingRateArbitrage.tableSymbols_nodup _

/-- Pipeline rows sit inside the compiled table's rows. -/
theorem pipeline_rows_subset (venueData : List (String × Option (List (String × Rate))))
    (r : FundingRateArbitrage.Row) (hr : r ∈ (rates_pipeline venueData).rows) :
    r ∈ (FundingRateArbitrage.compile_rates (built_dex_rates venueData)).rows :=
  (FundingRateArbitrage.create_rows_sublist _).subset hr

/-- Every pipeline row has at least two venue cells. -/
theorem pipeline_rows_coverage (venueData : List (String × Option (List (String × Rate))))
    (r : FundingRateArbitrage.Row) (hr : r ∈ (rates_pipeline venueData).rows) :
    2 ≤ r.rates.length := by
  by_cases hcols : (FundingRateArbitrage.compile_rates (built_dex_rates venueData)).cols = []
  · have := FundingRateArbitrage.compile_cols_nil_rows_nil _ hcols
    rw [rates_pipeline, FundingRateArbitrage.create_rates_table, this] at hr
    simp at hr
  · exact FundingRateArbitrage.create_rows_coverage _ hcols r hr

open FundingRateArbitrage

/-! ## C4: the All ranking mode -/

/-- C4, counterexample: in the All mode (`display_rates_table` over the
    built table), a symbol whose maximum and minimum rates are equal does
    appear: with both venues reporting rate 1 for BTC, the output is
    exactly the BTC row, whose `Difference` is 0.  The claim that
    zero-spread symbols are excluded from the All output is false. -/
theorem C4_all_mode_counterexample :
    (display_rates_table (rates_pipeline equalPairExample) =
        [⟨"BTC", [("orderly", 1), ("hyperliquid", 1)]⟩] ∧
      difference ⟨"BTC", [("orderly", 1), ("hyperliquid", 1)]⟩ = 0) ∧
    (display_rates_table (rates_pipeline unsortedExample) =
        [⟨"A", [("v1", 1), ("v2", 2)]⟩, ⟨"B", [("v1", 1), ("v2", 5)]⟩] ∧
      difference ⟨"A", [("v1", 1), ("v2", 2)]⟩ <
        difference ⟨"B", [("v1", 1), ("v2", 5)]⟩) := by
  refine ⟨⟨by decide, ?_⟩, by decide, ?_⟩
  · simp [difference, maxRate, minRate]
  · simp only [difference, maxRate, minRate, List.foldl_cons, List.foldl_nil]
    norm_num

/-- C4, amended: the All mode outputs exactly the rows of the compiled
    table that at least two venues report, in table order (a subsequence
    of the compiled rows), with no truncation — but with no sorting by
    spread and no exclusion of zero-spread symbols (the counterexample
    shows a zero-spread row in the output). -/
theorem C4_all_mode_amended (venueData : List (String × Option (List (String × Rate)))) :
    display_rates_table (rates_pipeline venueData) =
      (FundingRateArbitrage.compile_rates (built_dex_rates venueData)).rows.filter
        (fun r => decide (2 ≤ r.rates.length)) ∧
    List.Sublist (display_rates_table (rates_pipeline venueData))
      (FundingRateArbitrage.compile_rates (built_dex_rates venueData)).rows := by
  constructor
  · rw [display_rates_table, rates_pipeline, FundingRateArbitrage.create_rates_table]
    by_cases h0 : (FundingRateArbitrage.compile_rates (built_dex_rates venueData)).rows = []
    · simp [h0]
    · rw [if_neg h0]
      by_cases h1 : (FundingRateArbitrage.compile_rates (built_dex_rates venueData)).cols = []
      · exact absurd (FundingRateArbitrage.compile_cols_nil_rows_nil _ h1) h0
      · rw [if_neg h1]
  · exact FundingRateArbitrage.create_rows_sublist _

/-! ## C6: exclusion of equal-rate symbols -/

/-- C6, counterexample: venues `v1` and `v2` report the identical rate 1
    for `X`, yet `X` is ranked because `v3` reports 2 and the spread is
    therefore 1, not 0.  The claim that any two venues agreeing excludes
    the symbol regardless of other venues is false. -/
theorem C6_equal_pair_not_excluded :
    display_top_rates_differences_from_all_DEXs (rates_pipeline agreeingPairExample) 3 =
      [⟨"X", [("v1", 1), ("v2", 1), ("v3", 2)]⟩] := by
  have h : rates_pipeline agreeingPairExample =
      ⟨["v1", "v2", "v3"], [⟨"X", [("v1", 1), ("v2", 1), ("v3", 2)]⟩]⟩ := by decide
  rw [h, FundingRateArbitrage.display_top_rates_differences_from_all_DEXs]
  norm_num [FundingRateArbitrage.difference, FundingRateArbitrage.maxRate,
    FundingRateArbitrage.minRate, FundingRateArbitrage.sortByDifferenceDesc,
    FundingRateArbitrage.insertRowDesc, List.filter]
  simp

/-- C6, amended: a symbol is excluded from the ranked output when its
    maximum rate equals its minimum rate, i.e. when all venues reporting
    it agree; two venues agreeing does not exclude it while a third
    reports a different rate (see the counterexample). -/
theorem C6_zero_spread_exclusion_amended
    (venueData : List (String × Option (List (String × Rate))))
    (r : FundingRateArbitrage.Row)
    (hr : r ∈ (rates_pipeline venueData).rows)
    (heq : FundingRateArbitrage.maxRate r.rates = FundingRateArbitrage.minRate r.rates) :
    r.symbol ∉ (display_top_rates_differences_from_all_DEXs
        (rates_pipeline venueData) 3).map FundingRateArbitrage.Row.symbol := by
  intro hmem
  rcases List.mem_map.mp hmem with ⟨r2, hr2, hsym⟩
  have h3 := FundingRateArbitrage.mem_display_top_all_DEXs _ _ _ hr2
  have hrr : r2 = r :=
    List.inj_on_of_nodup_map (pipeline_rows_symbol_nodup venueData) h3.1 hr hsym
  have hzero : FundingRateArbitrage.difference r = 0 := by
    rw [FundingRateArbitrage.difference, heq, sub_self]
  have := h3.2.2
  rw [hrr, hzero] at this
  simp at this

/-- C6, witness: the amended exclusion applied to a symbol both of whose
    venues report rate 1. -/
theorem C6_zero_spread_exclusion_witness :
    ((⟨"Y", [("v1", 1), ("v2", 1)]⟩ : FundingRateArbitrage.Row) ∈
        (rates_pipeline zeroSpreadExample).rows) ∧
    (FundingRateArbitrage.maxRate [("v1", (1 : Rate)), ("v2", 1)] =
        FundingRateArbitrage.minRate [("v1", (1 : Rate)), ("v2", 1)]) ∧
    (FundingRateArbitrage.Row.symbol ⟨"Y", [("v1", 1), ("v2", 1)]⟩ ∉
      (display_top_rates_differences_from_all_DEXs
        (rates_pipeline zeroSpreadExample) 3).map FundingRateArbitrage.Row.symbol) :=
  ⟨by decide, by decide,
    C6_zero_spread_exclusion_amended zeroSpreadExample _ (by decide) (by decide)⟩

/-! ## C7: the coverage invariant -/

/-- C7: in each of the three ranking modes a row appears in the output
    only if at least two venues report a rate for the symbol, and every
    cell of such a row is a rate actually reported by that venue's
    normalized dict — a missing venue entry never becomes a cell, so it
    is never read as zero. -/
theorem C7_coverage_invariant
    (venueData : List (String × Option (List (String × Rate))))
    (r : FundingRateArbitrage.Row)
    (hr : r ∈ display_rates_table (rates_pipeline venueData) ∨
      r ∈ display_top_rates_differences_from_Orderly (rates_pipeline venueData) 3 ∨
      r ∈ display_top_rates_differences_from_all_DEXs (rates_pipeline venueData) 3) :
    2 ≤ r.rates.length ∧
    ∀ p ∈ r.rates, ∃ rs, (p.1, rs) ∈ built_dex_rates venueData ∧
      List.lookup r.symbol rs = some p.2 := by
  have hrow : r ∈ (rates_pipeline venueData).rows := by
    rcases hr with h | h | h
    · exact h
    · exact (FundingRateArbitrage.mem_display_top_Orderly _ _ _ h).1
    · exact (FundingRateArbitrage.mem_display_top_all_DEXs _ _ _ h).1
  refine ⟨pipeline_rows_coverage venueData r hrow, ?_⟩
  intro p hp
  have hcr := pipeline_rows_subset venueData r hrow
  have hrates := FundingRateArbitrage.mem_compile_rows _ _ hcr
  rw [hrates] at hp
  exact FundingRateArbitrage.mem_rowRates _ _ _ hp

/-- C7, witness: the invariant applied to the All-mode output of a small
    two-venue table. -/
theorem C7_coverage_invariant_witness :
    (((⟨"Z", [("v1", 1), ("v2", 2)]⟩ : FundingRateArbitrage.Row) ∈
        display_rates_table (rates_pipeline coverageExample) ∨
      (⟨"Z", [("v1", 1), ("v2", 2)]⟩ : FundingRateArbitrage.Row) ∈
        display_top_rates_differences_from_Orderly (rates_pipeline coverageExample) 3 ∨
      (⟨"Z", [("v1", 1), ("v2", 2)]⟩ : FundingRateArbitrage.Row) ∈
        display_top_rates_differences_from_all_DEXs (rates_pipeline coverageExample) 3)) ∧
    (2 ≤ (FundingRateArbitrage.Row.rates ⟨"Z", [("v1", 1), ("v2", 2)]⟩).length ∧
      ∀ p ∈ FundingRateArbitrage.Row.rates ⟨"Z", [("v1", 1), ("v2", 2)]⟩,
        ∃ rs, (p.1, rs) ∈ built_dex_rates coverageExample ∧
          List.lookup (FundingRateArbitrage.Row.symbol ⟨"Z", [("v1", 1), ("v2", 2)]⟩) rs =
            some p.2) :=
  ⟨Or.inl (by decide),
    C7_coverage_invariant coverageExample _ (Or.inl (by decide))⟩

/-! ## C8: the end-to-end aggregation scenario -/

/-- C8: with orderly reporting BTC at 0.0001, hyperliquid at 0.0003 and
    backpack's failed fetch contributing nothing, the built table maps
    BTC to exactly the orderly and hyperliquid cells (no backpack column
    and no backpack cell, in particular no zero), the spread is exactly
    0.0002, the maximum is attained at hyperliquid and the minimum at
    orderly, and the ranked output is exactly that opportunity. -/
theorem C8_aggregation_scenario :
    (rates_pipeline aggregationScenario).cols = ["orderly", "hyperliquid"] ∧
    (rates_pipeline aggregationScenario).rows = [aggregationRow] ∧
    List.lookup "backpack" aggregationRow.rates = none ∧
    difference aggregationRow = 2/10000 ∧
    List.lookup "hyperliquid" aggregationRow.rates = some (maxRate aggregationRow.rates) ∧
    List.lookup "orderly" aggregationRow.rates = some (minRate aggregationRow.rates) ∧
    display_top_rates_differences_from_all_DEXs (rates_pipeline aggregationScenario) 3 =
      [aggregationRow] := by
  have hmax : maxRate aggregationRow.rates = 3/10000 := by
    simp only [aggregationRow, maxRate, List.foldl_cons, List.foldl_nil]
    exact max_eq_right (by norm_num)
  have hmin : minRate aggregationRow.rates = 1/10000 := by
    simp only [aggregationRow, minRate, List.foldl_cons, List.foldl_nil]
    exact min_eq_left (by norm_num)
  refine ⟨rfl, rfl, rfl, ?_, ?_, ?_, ?_⟩
  · rw [difference, hmax, hmin]
    norm_num
  · rw [hmax]
    rfl
  · rw [hmin]
    rfl
  · have hdf : rates_pipeline aggregationScenario =
        ⟨["orderly", "hyperliquid"], [aggregationRow]⟩ := by rfl
    rw [hdf, display_top_rates_differences_from_all_DEXs]
    norm_num [aggregationRow, difference, maxRate, minRate, sortByDifferenceDesc,
      insertRowDesc, List.filter]
    simp

end FundArb
